import Mathlib

/-!
Verification of the comparison/reconciliation engine of the Stack-Overflow
scraper differential test oracle (`src/__main__.py`): the noise filter
(`dynamic_pop`), the diff post-processor (`remove_from_diff`), the order
validator (`validate_order`) and the API cache (`API_Cache`).

JSON-like documents are embedded as the inductive type `Doc`; Python dicts
become association lists with unique keys (a hypothesis where a proof needs
it), and in-place mutation becomes pure tree rebuilding.  Functions that can
raise a Python exception return `Option`, with `none` standing for the raised
exception.
-/

namespace Scraper

/-- A JSON document: the tree of maps, sequences and scalars that
`json.loads` produces.  Numbers are modelled as integers: every number the
verified claims touch is an integer, and float behaviour is out of scope. -/
inductive Doc where
  | str (s : String)
  | num (n : Int)
  | bool (b : Bool)
  | null
  | arr (xs : List Doc)
  | obj (kvs : List (String × Doc))

/-- Python `d[k]` / `k in d` on a dict, as first-binding lookup on the
association list (a Python dict has each key at most once). -/
def dlookup (k : String) : List (String × Doc) → Option Doc
  | [] => none
  | kv :: rest => if kv.1 = k then some kv.2 else dlookup k rest

/-- Python `item in pops` for a sequence element, where `pops` is a list of
strings: only a string scalar can compare equal to a string. -/
def elemBlocked (pops : List String) : Doc → Bool
  | .str s => pops.contains s
  | _ => false

mutual
/-- `dynamic_pop` of `src/__main__.py` (the inner `remove_items`), as a pure
tree rebuild.  The source collects the blocked keys (resp. elements) of a
node, pops them, and then recurses into the survivors; because the test for
each entry is independent of the others, that equals this single filtered
pass. -/
def dynamic_pop : Doc → List String → Doc
  | .obj kvs, pops => .obj (popObjEntries kvs pops)
  | .arr xs, pops => .arr (popArrElems xs pops)
  | .str s, _ => .str s
  | .num n, _ => .num n
  | .bool b, _ => .bool b
  | .null, _ => .null

/-- The dict node case of `dynamic_pop`: drop entries whose key is in
`pops`, recurse into the remaining values. -/
def popObjEntries : List (String × Doc) → List String → List (String × Doc)
  | [], _ => []
  | (k, v) :: rest, pops =>
    if pops.contains k then popObjEntries rest pops
    else (k, dynamic_pop v pops) :: popObjEntries rest pops

/-- The list node case of `dynamic_pop`: drop elements that are themselves
in `pops`, recurse into the remaining elements. -/
def popArrElems : List Doc → List String → List Doc
  | [], _ => []
  | x :: rest, pops =>
    if elemBlocked pops x then popArrElems rest pops
    else dynamic_pop x pops :: popArrElems rest pops
end

mutual
/-- Python `==` on two JSON values: scalars by value, lists pointwise in
order, dicts by key set and per-key value equality (a dict comparison does
not look at insertion order).  `1 == True` style cross-type equalities do
not arise between JSON documents of distinct `Doc` constructors in the
verified claims and are not modelled. -/
def docEq : Doc → Doc → Bool
  | .str a, .str b => a == b
  | .num a, .num b => a == b
  | .bool a, .bool b => a == b
  | .null, .null => true
  | .arr a, .arr b => docListEq a b
  | .obj a, .obj b => a.length == b.length && docEntriesLe a b
  | _, _ => false

/-- Pointwise `==` of two Python lists. -/
def docListEq : List Doc → List Doc → Bool
  | [], [] => true
  | x :: xs, y :: ys => docEq x y && docListEq xs ys
  | _, _ => false

/-- Every entry of the first dict is present in the second with an equal
value (with equal sizes this is Python dict equality). -/
def docEntriesLe : List (String × Doc) → List (String × Doc) → Bool
  | [], _ => true
  | (k, v) :: rest, b =>
    (match dlookup k b with
     | some w => docEq v w
     | none => false) && docEntriesLe rest b
end

/-- Python `needle in hay` on strings (substring containment), on the
character lists. -/
def charsContain (hay needle : List Char) : Bool :=
  match hay with
  | [] => needle.isEmpty
  | _ :: t => needle.isPrefixOf hay || charsContain t needle

/-- Python `needle in hay` for strings. -/
def strContains (hay needle : String) : Bool :=
  charsContain hay.toList needle.toList

/-! ### The diff post-processor `remove_from_diff`

A diff is the JSON object `DeepDiff` serialises to: an association list from
change-category to container.  `dict.pop(key)` without a default raises
`KeyError` when the key is absent, hence the `Option`s below. -/

/-- Python `dict.pop(key)`: remove the binding of `key`, `none` when `key`
is absent (a raised `KeyError`). -/
def dpop (k : String) : List (String × Doc) → Option (List (String × Doc))
  | [] => none
  | kv :: rest =>
    if kv.1 = k then some rest
    else (dpop k rest).map (fun l => kv :: l)

/-- Run `d.pop(k)` for each key of `ks` in order, `none` as soon as one
raises. -/
def popKeys : List (String × Doc) → List String → Option (List (String × Doc))
  | l, [] => some l
  | l, k :: ks =>
    match dpop k l with
    | none => none
    | some l2 => popKeys l2 ks

/-- Overwrite the first binding of `k` (Python `d[k] = v` on a present
key). -/
def dupdate (k : String) (v : Doc) : List (String × Doc) → List (String × Doc)
  | [] => []
  | kv :: rest => if kv.1 = k then (k, v) :: rest else kv :: dupdate k v rest

/-- The test `remove_from_diff` applies to a value of a `values_changed`
entry: it is a string that contains one of the `pops` substrings. -/
def isNoisy (pops : List String) : Doc → Bool
  | .str s => pops.any (fun check => strContains s check)
  | _ => false

/-- How many times `remove_from_diff`'s first loop appends this entry's key
to `to_pop`: once per value of the entry's detail dict that is a noisy
string (the `break` only leaves the loop over `pops`).  `none` when the
detail is not a dict (`.values()` would raise). -/
def noisyCount (pops : List String) : Doc → Option Nat
  | .obj dkvs => some ((dkvs.filter (fun kv => isNoisy pops kv.2)).length)
  | _ => none

/-- The `to_pop` list of `remove_from_diff`'s first loop over the
`values_changed` entries, with the multiplicity the source builds it with. -/
def buildToPop (pops : List String) : List (String × Doc) → Option (List String)
  | [] => some []
  | (k, detail) :: rest =>
    match noisyCount pops detail with
    | none => none
    | some c => (buildToPop pops rest).map (fun tp => List.replicate c k ++ tp)

/-- A value `remove_from_diff`'s second loop removes the key of: an empty
dict or an empty list. -/
def isEmptyContainer : Doc → Bool
  | .obj [] => true
  | .arr [] => true
  | _ => false

/-- The `to_pop` list of `remove_from_diff`'s second loop: the keys of the
diff whose value is an empty dict or list. -/
def collectEmptyKeys (diff : List (String × Doc)) : List String :=
  (diff.map Prod.fst).filter (fun k =>
    match dlookup k diff with
    | some v => isEmptyContainer v
    | none => false)

/-- `remove_from_diff` of `src/__main__.py`: drop every `values_changed`
entry one of whose values is a string containing a `pops` substring, then
drop every category whose container is empty.  `none` models a raised
exception: a `KeyError` from popping the same key twice (an entry whose
values match twice), or `values_changed` bound to something that is not a
mapping (DeepDiff's serialisation only ever binds it to a mapping of paths
to old/new pairs, so nothing else reaches this function in the source). -/
def remove_from_diff (diff : List (String × Doc)) (pops : List String) :
    Option (List (String × Doc)) :=
  match dlookup "values_changed" diff with
  | some (Doc.obj entries) =>
    (match buildToPop pops entries with
     | none => none
     | some tp =>
       match popKeys entries tp with
       | none => none
       | some entries2 =>
         let diff1 := dupdate "values_changed" (Doc.obj entries2) diff
         popKeys diff1 (collectEmptyKeys diff1))
  | some _ => none
  | none => popKeys diff (collectEmptyKeys diff)

/-! ### The API cache -/

/-- The `meta` dict of an `API_Cache` record.  Timestamps and the interval
are integers (seconds); float subsecond precision is immaterial to the
claims. -/
structure CacheMeta where
  last_update : Int
  url : String
  update_interval : Int

/-- The in-memory (and, via `_save`/`_load`, on-disk) state of an
`API_Cache` record. -/
structure APICache where
  meta : CacheMeta
  cache : Doc

/-- What `requests.get` comes back with inside `refresh`: a raised
`RequestException`, or a response with a status code and a parsed body. -/
inductive NetResult where
  | exc
  | resp (status : Nat) (body : Doc)

/-- `API_Cache.__init__`: a record for a never-seen origin URL starts with
`last_update = 0` and an empty cache body. -/
def API_Cache_init (url : String) (update_interval : Int) : APICache :=
  { meta := { last_update := 0, url := url, update_interval := update_interval },
    cache := Doc.obj [] }

/-- `API_Cache.refresh`: on a request exception or a status other than 200
the state is left untouched; on success the body is replaced and
`last_update` set to `now` (and the record saved). -/
def refresh (c : APICache) (now : Int) (net : NetResult) : APICache :=
  match net with
  | NetResult.exc => c
  | NetResult.resp status body =>
    if status ≠ 200 then c
    else { meta := { last_update := now, url := c.meta.url,
                     update_interval := c.meta.update_interval },
           cache := body }

/-- `API_Cache.fetch`: reload the record (`_load` returns the state as last
persisted, which is the state passed in here), refresh when stale, and
return the cache body.  The `Bool` records whether a refresh was
attempted. -/
def fetch (c : APICache) (now : Int) (net : NetResult) : APICache × Doc × Bool :=
  if now - c.meta.last_update > c.meta.update_interval then
    let c2 := refresh c now net
    (c2, c2.cache, true)
  else (c, c.cache, false)

/-! ### The structural differ

`validate_order` and `run_test` compare documents with the third-party
`DeepDiff` library (`ignore_order=True`), whose code is not part of this
repository.  The differ below is modelled from the spec (section 4.3). -/

/-- A single detected difference, with its full path from the root. -/
inductive Change where
  | valueChanged (path : String) (oldV newV : Doc)
  | itemAdded (path : String) (v : Doc)
  | itemRemoved (path : String) (v : Doc)
  | typeChanged (path : String) (oldV newV : Doc)

/-- The path of a map key under `p`, in DeepDiff's notation. -/
def keyPath (p k : String) : String := p ++ "['" ++ k ++ "']"

/-- The path of a sequence index under `p`, in DeepDiff's notation. -/
def idxPath (p : String) (i : Nat) : String := p ++ "[" ++ toString i ++ "]"

/-- Keys of `c` absent from `r`: `item_added` entries. -/
def objAdded (p : String) (r c : List (String × Doc)) : List Change :=
  (c.filter (fun kv => (dlookup kv.1 r).isNone)).map
    (fun kv => Change.itemAdded (keyPath p kv.1) kv.2)

/-- Keys of `r` absent from `c`: `item_removed` entries. -/
def objRemoved (p : String) (r c : List (String × Doc)) : List Change :=
  (r.filter (fun kv => (dlookup kv.1 c).isNone)).map
    (fun kv => Change.itemRemoved (keyPath p kv.1) kv.2)

/-- Remove the first indexed element equal (Python `==`) to `v`. -/
def eraseFirstDoc (v : Doc) : List (Nat × Doc) → List (Nat × Doc)
  | [] => []
  | c :: rest => if docEq v c.2 then rest else c :: eraseFirstDoc v rest

/-- Order-insensitive multiset matching of two indexed sequences by deep
equality: the unmatched elements of the reference and of the candidate. -/
def matchElems : List (Nat × Doc) → List (Nat × Doc) → List (Nat × Doc) × List (Nat × Doc)
  | [], cs => ([], cs)
  | r :: rs, cs =>
    if cs.any (fun c => docEq r.2 c.2) then matchElems rs (eraseFirstDoc r.2 cs)
    else
      let res := matchElems rs cs
      (r :: res.1, res.2)

/-- The sequence node case of the differ: unmatched reference elements are
removals, unmatched candidate elements are additions. -/
def arrChanges (p : String) (r c : List Doc) : List Change :=
  let res := matchElems r.enum c.enum
  res.1.map (fun e => Change.itemRemoved (idxPath p e.1) e.2)
    ++ res.2.map (fun e => Change.itemAdded (idxPath p e.1) e.2)

mutual
/-- Modelled from the spec: the Structural Differ of section 4.3 (the
`DeepDiff(..., ignore_order=True)` calls, library code absent from this
repository).  Maps compare by key set and recurse on common keys; sequences
match order-insensitively by deep equality; scalars of one kind compare by
value and nodes of different kinds are a type change.  The numeric and
datetime tolerances of 4.3 are not modelled: every scalar the claims
compare is a small integer, on which every tolerance agrees with
equality. -/
def collectDiff : String → Doc → Doc → List Change
  | p, Doc.obj r, Doc.obj c => objRemoved p r c ++ objAdded p r c ++ objCommon p r c
  | p, Doc.arr r, Doc.arr c => arrChanges p r c
  | p, Doc.str a, Doc.str b =>
    if a = b then [] else [Change.valueChanged p (Doc.str a) (Doc.str b)]
  | p, Doc.num a, Doc.num b =>
    if a = b then [] else [Change.valueChanged p (Doc.num a) (Doc.num b)]
  | p, Doc.bool a, Doc.bool b =>
    if a = b then [] else [Change.valueChanged p (Doc.bool a) (Doc.bool b)]
  | _, Doc.null, Doc.null => []
  | p, x, y => [Change.typeChanged p x y]

/-- Recursion of the differ into the keys present on both sides. -/
def objCommon : String → List (String × Doc) → List (String × Doc) → List Change
  | _, [], _ => []
  | p, (k, v) :: rest, c =>
    (match dlookup k c with
     | some w => collectDiff (keyPath p k) v w
     | none => []) ++ objCommon p rest c
end

/-- A `values_changed` entry of the serialised diff. -/
def changeVC : Change → Option (String × Doc)
  | Change.valueChanged p o n => some (p, Doc.obj [("new_value", n), ("old_value", o)])
  | _ => none

/-- A `type_changed` entry of the serialised diff. -/
def changeTC : Change → Option (String × Doc)
  | Change.typeChanged p o n => some (p, Doc.obj [("old_value", o), ("new_value", n)])
  | _ => none

/-- The path of an `item_added` change. -/
def changeAddPath : Change → Option String
  | Change.itemAdded p _ => some p
  | _ => none

/-- The path of an `item_removed` change. -/
def changeRemPath : Change → Option String
  | Change.itemRemoved p _ => some p
  | _ => none

/-- Group the collected changes into the category-keyed diff object; a
category is present only when it has entries. -/
def changesToDiff (cs : List Change) : List (String × Doc) :=
  let vc := cs.filterMap changeVC
  let tc := cs.filterMap changeTC
  let ia := cs.filterMap changeAddPath
  let ir := cs.filterMap changeRemPath
  (if vc.isEmpty then [] else [("values_changed", Doc.obj vc)])
    ++ (if tc.isEmpty then [] else [("type_changed", Doc.obj tc)])
    ++ (if ia.isEmpty then [] else [("item_added", Doc.arr (ia.map Doc.str))])
    ++ (if ir.isEmpty then [] else [("item_removed", Doc.arr (ir.map Doc.str))])

/-- Modelled from the spec: `diff(reference, candidate)` of section 4.3, as
the category-keyed change-set object.  An empty result signals structural
equivalence. -/
def deepDiff (ref cand : Doc) : List (String × Doc) :=
  changesToDiff (collectDiff "root" ref cand)

/-! ### The order validator `validate_order` -/

/-- The global noise block-list `GLOBAL_IGNORE_DIFF_CONTAINING` of
`src/__main__.py`: its only member is commented out, so it is empty. -/
def GLOBAL_IGNORE_DIFF_CONTAINING : List String := []

/-- Python `key in t` for the documents `validate_order` receives: dict key
membership, list element membership, substring test on a string; a raised
`TypeError` (`none`) on a scalar. -/
def docContainsKey : Doc → String → Option Bool
  | Doc.obj kvs, k => some (dlookup k kvs).isSome
  | Doc.arr xs, k => some (xs.any (fun x => docEq x (Doc.str k)))
  | Doc.str s, k => some (strContains s k)
  | _, _ => none

/-- Python `t[key]` with a string key: only a dict supports it (`none` is
the raised `TypeError`/`KeyError`). -/
def docGetKey : Doc → String → Option Doc
  | Doc.obj kvs, k => dlookup k kvs
  | _, _ => none

/-- Python `len(v)`: length of a list, a dict or a string; a raised
`TypeError` on the other scalars. -/
def docLen : Doc → Option Nat
  | Doc.arr xs => some xs.length
  | Doc.obj kvs => some kvs.length
  | Doc.str s => some s.length
  | _ => none

/-- Python `v[i]` with an int index: list indexing, or the one-character
string of a string; a raised error otherwise. -/
def docIndexAt : Doc → Nat → Option Doc
  | Doc.arr xs, i => xs.get? i
  | Doc.str s, i => (s.toList.get? i).map (fun ch => Doc.str (String.mk [ch]))
  | _, _ => none

/-- The descriptor `validate_order` records for a field whose sequences
differ in length. -/
def lengthMismatchDesc (key : String) : String :=
  "root['" ++ key ++ "'] : 'length mismatch'"

/-- The descriptor `validate_order` records for an index whose elements
differ. -/
def itemsMismatchDesc (key : String) (i : Nat) : String :=
  "root['" ++ key ++ "'][" ++ toString i ++ "] : 'items mismatch'"

/-- The per-index loop of `validate_order` over one field: diff the two
elements at each index, post-process that diff with the global noise list,
and record an items mismatch when it is non-empty. -/
def orderIndexChecks (a b : Doc) (key : String) : List Nat → Option (List String)
  | [] => some []
  | i :: is =>
    match docIndexAt a i, docIndexAt b i with
    | some x, some y =>
      (match remove_from_diff (deepDiff x y) GLOBAL_IGNORE_DIFF_CONTAINING with
       | none => none
       | some d =>
         (orderIndexChecks a b key is).map (fun rest =>
           if d.isEmpty then rest else itemsMismatchDesc key i :: rest))
    | _, _ => none

/-- The loop of `validate_order` over the comparison keys: skip a key
missing on either side, record one length mismatch when the lengths differ
(and no per-index comparison), otherwise compare index by index. -/
def orderKeyChecks (t1 t2 : Doc) : List String → Option (List String)
  | [] => some []
  | key :: ks =>
    match docContainsKey t1 key with
    | none => none
    | some false => orderKeyChecks t1 t2 ks
    | some true =>
      match docContainsKey t2 key with
      | none => none
      | some false => orderKeyChecks t1 t2 ks
      | some true =>
        match docGetKey t1 key, docGetKey t2 key with
        | some a, some b =>
          (match docLen a, docLen b with
           | some la, some lb =>
             if la ≠ lb then
               (orderKeyChecks t1 t2 ks).map (fun rest => lengthMismatchDesc key :: rest)
             else
               match orderIndexChecks a b key (List.range la) with
               | none => none
               | some these => (orderKeyChecks t1 t2 ks).map (fun rest => these ++ rest)
           | _, _ => none)
        | _, _ => none

/-- `validate_order` of `src/__main__.py`: `some (none)` is Python's
`None` (no mismatches), `some (some ms)` the returned mismatch list, and
the outer `none` a raised exception. -/
def validate_order (t1 t2 : Doc) (comparison_keys : List String) :
    Option (Option (List String)) :=
  (orderKeyChecks t1 t2 comparison_keys).map (fun ms =>
    if ms.isEmpty then none else some ms)

/-! ### Observation predicates and the state-threaded `remove_items` -/

mutual
/-- A document mentions the block-list `B`: some map key anywhere in the
tree is in `B`, or some scalar anywhere in the tree is in `B` (only a
string scalar can equal a member of the string list `B`). -/
def mentionsBlocked (B : List String) : Doc → Bool
  | Doc.str s => B.contains s
  | Doc.arr xs => mentionsBlockedList B xs
  | Doc.obj kvs => mentionsBlockedObj B kvs
  | _ => false

/-- `mentionsBlocked` over the elements of a sequence node. -/
def mentionsBlockedList (B : List String) : List Doc → Bool
  | [] => false
  | x :: rest => mentionsBlocked B x || mentionsBlockedList B rest

/-- `mentionsBlocked` over the entries of a map node. -/
def mentionsBlockedObj (B : List String) : List (String × Doc) → Bool
  | [] => false
  | (k, v) :: rest => B.contains k || mentionsBlocked B v || mentionsBlockedObj B rest
end

mutual
/-- The inner `remove_items` of `dynamic_pop` with the block-list threaded
through as state, the way the Python procedure holds it by reference: every
step passes the list on (the source only reads membership in it), so the
returned list is the block-list as the procedure leaves it. -/
def remove_items_st : Doc → List String → Doc × List String
  | Doc.obj kvs, pops =>
    let r := entries_st kvs pops
    (Doc.obj r.1, r.2)
  | Doc.arr xs, pops =>
    let r := elems_st xs pops
    (Doc.arr r.1, r.2)
  | d, pops => (d, pops)

/-- `remove_items_st` over the entries of a map node. -/
def entries_st : List (String × Doc) → List String → List (String × Doc) × List String
  | [], pops => ([], pops)
  | (k, v) :: rest, pops =>
    if pops.contains k then entries_st rest pops
    else
      let rv := remove_items_st v pops
      let rr := entries_st rest rv.2
      ((k, rv.1) :: rr.1, rr.2)

/-- `remove_items_st` over the elements of a sequence node. -/
def elems_st : List Doc → List String → List Doc × List String
  | [], pops => ([], pops)
  | x :: rest, pops =>
    if elemBlocked pops x then elems_st rest pops
    else
      let rx := remove_items_st x pops
      let rr := elems_st rest rx.2
      (rx.1 :: rr.1, rr.2)
end

/-- A string-typed document (Python `isinstance(v, str)`). -/
def isStringDoc : Doc → Bool
  | .str _ => true
  | _ => false

/-- Concrete diff used by the closed statement about suppression
shrinking: one `values_changed` entry that matches no noise substring. -/
def diffW6 : List (String × Doc) :=
  [("values_changed", Doc.obj [("p",
      Doc.obj [("new_value", Doc.str "abc"), ("old_value", Doc.str "abd")])])]

/-- Concrete diff used by the closed statement about non-string values:
one `values_changed` entry whose old and new values are numbers. -/
def diffW9 : List (String × Doc) :=
  [("values_changed", Doc.obj [("p",
      Doc.obj [("new_value", Doc.num 1), ("old_value", Doc.num 2)])])]

/-- Concrete diff used by the closed statement about pruning: an
`item_added` category that is already an empty list next to a non-empty
`values_changed`. -/
def diffW10 : List (String × Doc) :=
  [("item_added", Doc.arr []),
   ("values_changed", Doc.obj [("p",
      Doc.obj [("new_value", Doc.str "a"), ("old_value", Doc.str "b")])])]

/-- Concrete origin URL used by the closed cache statements. -/
def urlW : String := "https://api.stackexchange.com/2.3/info?site=stackoverflow"

/-- Concrete cache record used by the closed cache statements. -/
def cacheW : APICache := API_Cache_init urlW 600

/-! ## Theorems -/

/-! Sanity checks of the embedding on small concrete inputs. -/

example : dynamic_pop (Doc.obj [("a", Doc.str "bad")]) ["bad"]
    = Doc.obj [("a", Doc.str "bad")] := rfl

example : strContains "xAbadY" "bad" = true := rfl
example : strContains "xAbaY" "bad" = false := rfl
example : strContains "abc" "" = true := rfl
example : docEq (Doc.obj [("a", Doc.num 1), ("b", Doc.null)])
    (Doc.obj [("b", Doc.null), ("a", Doc.num 1)]) = true := rfl
example : docEq (Doc.obj [("a", Doc.num 1)]) (Doc.obj [("a", Doc.num 2)]) = false := rfl
example : docEq (Doc.arr [Doc.num 1, Doc.num 2]) (Doc.arr [Doc.num 2, Doc.num 1]) = false := rfl

example : dynamic_pop (Doc.obj [("key1", Doc.str "value1"),
      ("key3", Doc.obj [("key4", Doc.str "value4")]),
      ("key6", Doc.arr [Doc.str "value6"])]) ["key1", "value4", "value6"]
    = Doc.obj [("key3", Doc.obj [("key4", Doc.str "value4")]),
      ("key6", Doc.arr [])] := rfl

example : remove_from_diff
    [("values_changed", Doc.obj [("p",
        Doc.obj [("new_value", Doc.str "/cdn/email-protection#43"),
                 ("old_value", Doc.str "mailto:aws@amazon.com")])])]
    ["email-protection"] = some [] := rfl

example : remove_from_diff
    [("values_changed", Doc.obj [("p",
        Doc.obj [("new_value", Doc.str "xAbadY"),
                 ("old_value", Doc.str "badQ")])])]
    ["bad"] = none := rfl

example : remove_from_diff [("item_added", Doc.arr [])] [] = some [] := rfl

example : deepDiff (Doc.obj [("id", Doc.num 1)]) (Doc.obj [("id", Doc.num 1)]) = [] := rfl
example : deepDiff (Doc.obj [("id", Doc.num 1)]) (Doc.obj [("id", Doc.num 2)])
    = [("values_changed", Doc.obj [("root['id']",
        Doc.obj [("new_value", Doc.num 2), ("old_value", Doc.num 1)])])] := rfl
example : deepDiff (Doc.arr [Doc.num 1, Doc.num 2]) (Doc.arr [Doc.num 2, Doc.num 1]) = [] := rfl

example : validate_order
    (Doc.obj [("items", Doc.arr [Doc.num 1, Doc.num 2, Doc.num 3])])
    (Doc.obj [("items", Doc.arr [Doc.num 1, Doc.num 2])]) ["items"]
    = some (some ["root['items'] : 'length mismatch'"]) := rfl

example : validate_order
    (Doc.obj [("items", Doc.arr [Doc.num 1, Doc.num 2])])
    (Doc.obj [("items", Doc.arr [Doc.num 1, Doc.num 2])]) ["items"]
    = some none := rfl

/-- C1: the claim states that `dynamic_pop` leaves no scalar of the
block-list anywhere in the stripped tree, and the function's own docstring
example agrees (it shows the entry `'key4': 'value4'` removed for the
block-list member `'value4'`); but the code only removes blocked keys of
dicts and blocked elements of lists, so a blocked scalar standing as a map
value survives.  Evaluated at the docstring's own example: the entry
`'key4': 'value4'` is kept, and the stripped tree still mentions the
block-list. -/
theorem dynamic_pop_keeps_blocked_map_value :
    dynamic_pop (Doc.obj [("key1", Doc.str "value1"), ("key2", Doc.str "value2"),
        ("key3", Doc.obj [("key4", Doc.str "value4"), ("key5", Doc.str "value5")]),
        ("key6", Doc.arr [Doc.str "value6"])]) ["key1", "value4", "value6"]
      = Doc.obj [("key2", Doc.str "value2"),
        ("key3", Doc.obj [("key4", Doc.str "value4"), ("key5", Doc.str "value5")]),
        ("key6", Doc.arr [])] ∧
    mentionsBlocked ["key1", "value4", "value6"]
      (dynamic_pop (Doc.obj [("key1", Doc.str "value1"), ("key2", Doc.str "value2"),
        ("key3", Doc.obj [("key4", Doc.str "value4"), ("key5", Doc.str "value5")]),
        ("key6", Doc.arr [Doc.str "value6"])]) ["key1", "value4", "value6"]) = true :=
  ⟨rfl, rfl⟩

/-- C2: on reference `{"items": [{"id": 1}, {"id": 2}]}` and candidate
`{"items": [{"id": 2}, {"id": 1}]}` the order-insensitive structural diff
is empty, while `validate_order` on the ordered field `"items"` returns
exactly two descriptors: an items mismatch at index 0 and at index 1. -/
theorem validate_order_detects_swapped_items :
    deepDiff
        (Doc.obj [("items", Doc.arr [Doc.obj [("id", Doc.num 1)], Doc.obj [("id", Doc.num 2)]])])
        (Doc.obj [("items", Doc.arr [Doc.obj [("id", Doc.num 2)], Doc.obj [("id", Doc.num 1)]])])
      = [] ∧
    validate_order
        (Doc.obj [("items", Doc.arr [Doc.obj [("id", Doc.num 1)], Doc.obj [("id", Doc.num 2)]])])
        (Doc.obj [("items", Doc.arr [Doc.obj [("id", Doc.num 2)], Doc.obj [("id", Doc.num 1)]])])
        ["items"]
      = some (some ["root['items'][0] : 'items mismatch'",
                    "root['items'][1] : 'items mismatch'"]) :=
  ⟨rfl, rfl⟩

/-- C4: the claim states that `remove_from_diff` deletes exactly the
`values_changed` entries one of whose values contains a noise substring,
and the function's docstring says the same; but when the old and the new
value of one entry both contain a noise substring, the first loop appends
the entry's key to `to_pop` twice (the `break` only leaves the loop over
`pops`), and the second `dict.pop` of the same key raises `KeyError`
instead of returning the processed diff. -/
theorem remove_from_diff_double_match_keyerror :
    remove_from_diff
      [("values_changed", Doc.obj [("root['link']",
          Doc.obj [("new_value", Doc.str "xAbadY"),
                   ("old_value", Doc.str "badQ")])])]
      ["bad"] = none := rfl

/-- C3: a failed refresh attempt (request exception or a non-200 status)
leaves the record exactly as it was, and `fetch` returns the previously
cached body unchanged: `last_update` is not advanced. -/
theorem fetch_failed_refresh_returns_stale (c : APICache) (now : Int) (net : NetResult)
    (h : net = NetResult.exc ∨ ∃ s b, net = NetResult.resp s b ∧ s ≠ 200) :
    refresh c now net = c ∧
    (fetch c now net).1 = c ∧
    (fetch c now net).2.1 = c.cache := by
  have hr : refresh c now net = c := by
    rcases h with h | ⟨s, b, h, hs⟩
    · subst h; rfl
    · subst h; simp [refresh, hs]
  refine ⟨hr, ?_, ?_⟩ <;> unfold fetch <;> split <;> simp [hr]

/-- Witness for C3 at a concrete input: a 500 response against a fresh
record for `urlW`. -/
theorem fetch_failed_refresh_returns_stale_witness :
    refresh cacheW 1000 (NetResult.resp 500 Doc.null) = cacheW ∧
    (fetch cacheW 1000 (NetResult.resp 500 Doc.null)).1 = cacheW ∧
    (fetch cacheW 1000 (NetResult.resp 500 Doc.null)).2.1 = cacheW.cache :=
  fetch_failed_refresh_returns_stale cacheW 1000 (NetResult.resp 500 Doc.null)
    (Or.inr ⟨500, Doc.null, rfl, by decide⟩)

/-- C7: a record for a never-seen origin URL is created with
`last_update = 0`, and the first `fetch` on it attempts a refresh: the
freshness check `now - last_update > update_interval` holds (for any clock
reading past the update interval, as every real epoch timestamp is). -/
theorem init_record_forces_first_refresh (url : String) (iv now : Int) (net : NetResult)
    (h : iv < now) :
    (API_Cache_init url iv).meta.last_update = 0 ∧
    (fetch (API_Cache_init url iv) now net).2.2 = true := by
  refine ⟨rfl, ?_⟩
  have hc : now - (API_Cache_init url iv).meta.last_update
      > (API_Cache_init url iv).meta.update_interval := by
    simp only [API_Cache_init]
    omega
  unfold fetch
  rw [if_pos hc]

/-- Witness for C7 at a concrete input: interval 600, clock reading 1000,
network unreachable. -/
theorem init_record_forces_first_refresh_witness :
    (API_Cache_init urlW 600).meta.last_update = 0 ∧
    (fetch (API_Cache_init urlW 600) 1000 NetResult.exc).2.2 = true :=
  init_record_forces_first_refresh urlW 600 1000 NetResult.exc (by decide)

/-- C5: for any two documents carrying an ordered field present on both
sides whose two sequences differ in length, `validate_order` on that field
records the single length-mismatch descriptor and performs no per-index
comparison: the result is exactly the one descriptor. -/
theorem validate_order_length_mismatch (t1kvs t2kvs : List (String × Doc))
    (key : String) (a b : List Doc)
    (h1 : dlookup key t1kvs = some (Doc.arr a))
    (h2 : dlookup key t2kvs = some (Doc.arr b))
    (hlen : a.length ≠ b.length) :
    validate_order (Doc.obj t1kvs) (Doc.obj t2kvs) [key]
      = some (some [lengthMismatchDesc key]) := by
  simp only [validate_order, orderKeyChecks, docContainsKey, h1, h2, Option.isSome_some,
    docGetKey, docLen, if_pos hlen, Option.map_some']
  simp

/-- Witness for C5 at the spec's example: `{"items": [1, 2, 3]}` against
`{"items": [1, 2]}` yields the length-mismatch descriptor for `"items"`. -/
theorem validate_order_length_mismatch_witness :
    validate_order (Doc.obj [("items", Doc.arr [Doc.num 1, Doc.num 2, Doc.num 3])])
        (Doc.obj [("items", Doc.arr [Doc.num 1, Doc.num 2])]) ["items"]
      = some (some [lengthMismatchDesc "items"]) :=
  validate_order_length_mismatch [("items", Doc.arr [Doc.num 1, Doc.num 2, Doc.num 3])]
    [("items", Doc.arr [Doc.num 1, Doc.num 2])] "items"
    [Doc.num 1, Doc.num 2, Doc.num 3] [Doc.num 1, Doc.num 2] rfl rfl (by decide)

/-- `popArrElems` is the filtered, recursed list of the source's sequence
case. -/
theorem popArrElems_eq_filter_map (B : List String) : ∀ xs : List Doc,
    popArrElems xs B
      = (xs.filter (fun x => !elemBlocked B x)).map (fun x => dynamic_pop x B)
  | [] => rfl
  | x :: rest => by
    by_cases hb : elemBlocked B x <;>
      simp [popArrElems, List.filter_cons, hb, popArrElems_eq_filter_map B rest]

/-- `popObjEntries` is the filtered, recursed entry list of the source's
map case. -/
theorem popObjEntries_eq_filter_map (B : List String) : ∀ kvs : List (String × Doc),
    popObjEntries kvs B
      = (kvs.filter (fun kv => !B.contains kv.1)).map (fun kv => (kv.1, dynamic_pop kv.2 B))
  | [] => rfl
  | (k, v) :: rest => by
    by_cases hb : k ∈ B <;>
      simp [popObjEntries, List.filter_cons, hb, popObjEntries_eq_filter_map B rest]

theorem sizeOf_elem_lt_arr {x : Doc} {xs : List Doc} (h : x ∈ xs) :
    sizeOf x < sizeOf (Doc.arr xs) := by
  have h1 := List.sizeOf_lt_of_mem h
  simp only [Doc.arr.sizeOf_spec]
  omega

theorem sizeOf_val_lt_obj {kv : String × Doc} {kvs : List (String × Doc)}
    (h : kv ∈ kvs) : sizeOf kv.2 < sizeOf (Doc.obj kvs) := by
  have h1 := List.sizeOf_lt_of_mem h
  obtain ⟨k, v⟩ := kv
  simp only [Prod.mk.sizeOf_spec] at h1
  simp only [Doc.obj.sizeOf_spec]
  omega

/-- `elems_st` agrees with the pure sequence pass and hands the block-list
back unchanged, given that the elements do. -/
theorem elems_st_eq (B : List String) : ∀ xs : List Doc,
    (∀ x ∈ xs, ∀ B2, remove_items_st x B2 = (dynamic_pop x B2, B2)) →
    elems_st xs B = (popArrElems xs B, B)
  | [], _ => rfl
  | x :: rest, h => by
    have hx := h x (List.mem_cons_self x rest) B
    have hr := elems_st_eq B rest (fun y hy B2 => h y (List.mem_cons_of_mem x hy) B2)
    by_cases hb : elemBlocked B x <;> simp [elems_st, popArrElems, hb, hx, hr]

/-- `entries_st` agrees with the pure map pass and hands the block-list
back unchanged, given that the entry values do. -/
theorem entries_st_eq (B : List String) : ∀ kvs : List (String × Doc),
    (∀ kv ∈ kvs, ∀ B2, remove_items_st kv.2 B2 = (dynamic_pop kv.2 B2, B2)) →
    entries_st kvs B = (popObjEntries kvs B, B)
  | [], _ => rfl
  | (k, v) :: rest, h => by
    have hx := h (k, v) (List.mem_cons_self (k, v) rest) B
    have hr := entries_st_eq B rest (fun kv hkv B2 => h kv (List.mem_cons_of_mem (k, v) hkv) B2)
    by_cases hb : k ∈ B <;> simp [entries_st, popObjEntries, hb, hx, hr]

/-- The state-threaded `remove_items` computes `dynamic_pop` and returns
the block-list unchanged (strong induction on the size of the document). -/
theorem remove_items_st_eq : ∀ (n : Nat) (d : Doc), sizeOf d ≤ n →
    ∀ B, remove_items_st d B = (dynamic_pop d B, B) := by
  intro n
  induction n with
  | zero =>
    intro d hd
    have hpos : 0 < sizeOf d := by cases d <;> simp_arith
    omega
  | succ n ih =>
    intro d hd B
    match d with
    | .str s => rfl
    | .num m => rfl
    | .bool b => rfl
    | .null => rfl
    | .arr xs =>
      have : elems_st xs B = (popArrElems xs B, B) :=
        elems_st_eq B xs (fun x hx B2 =>
          ih x (by have := sizeOf_elem_lt_arr hx; omega) B2)
      simp [remove_items_st, dynamic_pop, this]
    | .obj kvs =>
      have : entries_st kvs B = (popObjEntries kvs B, B) :=
        entries_st_eq B kvs (fun kv hkv B2 =>
          ih kv.2 (by have := sizeOf_val_lt_obj hkv; omega) B2)
      simp [remove_items_st, dynamic_pop, this]

/-- C8: `dynamic_pop` keeps the surviving sequence elements and map entries
in their original relative order (the survivors form a sublist of the node,
each stripped recursively), and the block-list itself comes out of the
procedure exactly as it went in. -/
theorem dynamic_pop_order_and_blocklist_preserved :
    (∀ (xs : List Doc) (B : List String), ∃ kept : List Doc, kept.Sublist xs ∧
        dynamic_pop (Doc.arr xs) B = Doc.arr (kept.map (fun x => dynamic_pop x B))) ∧
    (∀ (kvs : List (String × Doc)) (B : List String),
        ∃ kept : List (String × Doc), kept.Sublist kvs ∧
        dynamic_pop (Doc.obj kvs) B
          = Doc.obj (kept.map (fun kv => (kv.1, dynamic_pop kv.2 B)))) ∧
    (∀ (d : Doc) (B : List String), remove_items_st d B = (dynamic_pop d B, B)) := by
  refine ⟨fun xs B => ⟨xs.filter (fun x => !elemBlocked B x), List.filter_sublist _, ?_⟩,
    fun kvs B => ⟨kvs.filter (fun kv => !B.contains kv.1), List.filter_sublist _, ?_⟩,
    fun d B => remove_items_st_eq (sizeOf d) d le_rfl B⟩
  · simp [dynamic_pop, popArrElems_eq_filter_map]
  · simp [dynamic_pop, popObjEntries_eq_filter_map]

/-! ### Association-list lemmas for `remove_from_diff` -/

theorem dlookup_mem : ∀ (l : List (String × Doc)) (k : String) (v : Doc),
    dlookup k l = some v → (k, v) ∈ l
  | [], k, v, h => by simp [dlookup] at h
  | kv :: rest, k, v, h => by
    by_cases he : kv.1 = k
    · rw [dlookup, if_pos he] at h
      injection h with h2
      subst h2
      subst he
      exact List.mem_cons_self kv rest
    · rw [dlookup, if_neg he] at h
      exact List.mem_cons_of_mem kv (dlookup_mem rest k v h)

theorem dpop_sublist : ∀ (l l2 : List (String × Doc)) (k : String),
    dpop k l = some l2 → l2.Sublist l
  | [], _, k, h => by simp [dpop] at h
  | kv :: rest, l2, k, h => by
    rw [dpop] at h
    split at h
    · injection h with h2
      subst h2
      exact List.sublist_cons_self kv rest
    · cases hm : dpop k rest with
      | none => rw [hm] at h; simp at h
      | some m =>
        rw [hm] at h
        simp only [Option.map_some'] at h
        injection h with h2
        subst h2
        exact List.Sublist.cons₂ kv (dpop_sublist rest m k hm)

theorem popKeys_sublist : ∀ (ks : List String) (l l2 : List (String × Doc)),
    popKeys l ks = some l2 → l2.Sublist l
  | [], l, l2, h => by
    simp only [popKeys] at h
    injection h with h2
    subst h2
    exact List.Sublist.refl l
  | k :: ks, l, l2, h => by
    simp only [popKeys] at h
    cases hm : dpop k l with
    | none => rw [hm] at h; simp at h
    | some m =>
      rw [hm] at h
      exact (popKeys_sublist ks m l2 h).trans (dpop_sublist l m k hm)

theorem dpop_mem_preserved : ∀ (l l2 : List (String × Doc)) (k : String) (kv : String × Doc),
    dpop k l = some l2 → kv ∈ l → kv.1 ≠ k → kv ∈ l2
  | [], _, k, kv, h, _, _ => by simp [dpop] at h
  | hv :: rest, l2, k, kv, h, hmem, hne => by
    rw [dpop] at h
    split at h
    · rename_i he
      injection h with h2
      subst h2
      rcases List.mem_cons.mp hmem with h1 | h1
      · exact absurd (h1 ▸ he) hne
      · exact h1
    · cases hm : dpop k rest with
      | none => rw [hm] at h; simp at h
      | some m =>
        rw [hm] at h
        simp only [Option.map_some'] at h
        injection h with h2
        subst h2
        rcases List.mem_cons.mp hmem with h1 | h1
        · exact h1 ▸ List.mem_cons_self hv m
        · exact List.mem_cons_of_mem hv (dpop_mem_preserved rest m k kv hm h1 hne)

theorem popKeys_mem_preserved : ∀ (ks : List String) (l l2 : List (String × Doc))
    (kv : String × Doc),
    popKeys l ks = some l2 → kv ∈ l → kv.1 ∉ ks → kv ∈ l2
  | [], l, l2, kv, h, hmem, _ => by
    simp only [popKeys] at h
    injection h with h2
    subst h2
    exact hmem
  | k :: ks, l, l2, kv, h, hmem, hnin => by
    simp only [popKeys] at h
    cases hm : dpop k l with
    | none => rw [hm] at h; simp at h
    | some m =>
      rw [hm] at h
      have h1 : kv.1 ≠ k := fun he => hnin (he ▸ List.mem_cons_self k ks)
      have h2 : kv.1 ∉ ks := fun hin => hnin (List.mem_cons_of_mem k hin)
      exact popKeys_mem_preserved ks m l2 kv h (dpop_mem_preserved l m k kv hm hmem h1) h2

theorem dpop_dlookup_ne : ∀ (l l2 : List (String × Doc)) (k k2 : String),
    dpop k l = some l2 → k2 ≠ k → dlookup k2 l2 = dlookup k2 l
  | [], _, k, k2, h, _ => by simp [dpop] at h
  | hv :: rest, l2, k, k2, h, hne => by
    rw [dpop] at h
    split at h
    · rename_i he
      injection h with h2
      subst h2
      rw [dlookup, if_neg (fun hx : hv.1 = k2 => hne (hx.symm.trans he))]
    · rename_i he
      cases hm : dpop k rest with
      | none => rw [hm] at h; simp at h
      | some m =>
        rw [hm] at h
        simp only [Option.map_some'] at h
        injection h with h2
        subst h2
        by_cases hk2 : hv.1 = k2
        · rw [dlookup, if_pos hk2, dlookup, if_pos hk2]
        · rw [dlookup, if_neg hk2, dlookup, if_neg hk2]
          exact dpop_dlookup_ne rest m k k2 hm hne

theorem popKeys_dlookup : ∀ (ks : List String) (l l2 : List (String × Doc)) (k2 : String),
    popKeys l ks = some l2 → k2 ∉ ks → dlookup k2 l2 = dlookup k2 l
  | [], l, l2, k2, h, _ => by
    simp only [popKeys] at h
    injection h with h2
    subst h2
    rfl
  | k :: ks, l, l2, k2, h, hnin => by
    simp only [popKeys] at h
    cases hm : dpop k l with
    | none => rw [hm] at h; simp at h
    | some m =>
      rw [hm] at h
      have h1 : k2 ≠ k := fun he => hnin (he ▸ List.mem_cons_self k ks)
      have h2 : k2 ∉ ks := fun hin => hnin (List.mem_cons_of_mem k hin)
      exact (popKeys_dlookup ks m l2 k2 h h2).trans (dpop_dlookup_ne l m k k2 hm h1)

theorem buildToPop_mem : ∀ (es : List (String × Doc)) (pops : List String)
    (tp : List String) (k : String),
    buildToPop pops es = some tp → k ∈ tp →
    ∃ d c, (k, d) ∈ es ∧ noisyCount pops d = some c ∧ 0 < c
  | [], pops, tp, k, h, hk => by
    simp only [buildToPop] at h
    injection h with h2
    subst h2
    simp at hk
  | (k0, detail) :: rest, pops, tp, k, h, hk => by
    simp only [buildToPop] at h
    cases hnc : noisyCount pops detail with
    | none => rw [hnc] at h; simp at h
    | some c =>
      rw [hnc] at h
      cases hbt : buildToPop pops rest with
      | none => rw [hbt] at h; simp at h
      | some tp2 =>
        rw [hbt] at h
        simp only [Option.map_some'] at h
        injection h with h2
        subst h2
        rcases List.mem_append.mp hk with hk1 | hk2
        · have hke := List.eq_of_mem_replicate hk1
          subst hke
          refine ⟨detail, c, List.mem_cons_self _ _, hnc, ?_⟩
          rcases Nat.eq_zero_or_pos c with hc | hc
          · subst hc; simp at hk1
          · exact hc
        · obtain ⟨d, c2, hmem, hcnt, hpos⟩ := buildToPop_mem rest pops tp2 k hbt hk2
          exact ⟨d, c2, List.mem_cons_of_mem _ hmem, hcnt, hpos⟩

theorem nodup_assoc_eq : ∀ (l : List (String × Doc)) (k : String) (x y : Doc),
    (l.map Prod.fst).Nodup → (k, x) ∈ l → (k, y) ∈ l → x = y
  | [], k, x, y, _, hx, _ => by simp at hx
  | kv :: rest, k, x, y, hnd, hx, hy => by
    rw [List.map_cons, List.nodup_cons] at hnd
    obtain ⟨hnin, hnd2⟩ := hnd
    rcases List.mem_cons.mp hx with hx1 | hx1 <;> rcases List.mem_cons.mp hy with hy1 | hy1
    · rw [← hx1] at hy1; exact (Prod.mk.injEq _ _ _ _ ▸ hy1).2.symm
    · exact absurd (List.mem_map.mpr ⟨(k, y), hy1, by rw [← hx1]⟩) hnin
    · exact absurd (List.mem_map.mpr ⟨(k, x), hx1, by rw [← hy1]⟩) hnin
    · exact nodup_assoc_eq rest k x y hnd2 hx1 hy1

theorem collectEmptyKeys_mem (l : List (String × Doc)) (k : String)
    (hk : k ∈ collectEmptyKeys l) :
    ∃ v, dlookup k l = some v ∧ isEmptyContainer v = true := by
  unfold collectEmptyKeys at hk
  rcases List.mem_filter.mp hk with ⟨-, hp⟩
  cases hv : dlookup k l with
  | none => rw [hv] at hp; simp at hp
  | some v => rw [hv] at hp; exact ⟨v, rfl, hp⟩

theorem collectEmptyKeys_subset_keys (l : List (String × Doc)) (k : String)
    (h : k ∈ collectEmptyKeys l) : k ∈ l.map Prod.fst := by
  unfold collectEmptyKeys at h
  exact List.mem_of_mem_filter h

theorem dupdate_map_fst (k : String) (v : Doc) : ∀ l : List (String × Doc),
    (dupdate k v l).map Prod.fst = l.map Prod.fst
  | [] => rfl
  | kv :: rest => by
    by_cases he : kv.1 = k
    · simp [dupdate, he]
    · simp [dupdate, he, dupdate_map_fst k v rest]

theorem mem_dupdate : ∀ (l : List (String × Doc)) (k : String) (v : Doc) (kv : String × Doc),
    kv ∈ dupdate k v l → kv ∈ l ∨ kv = (k, v)
  | [], k, v, kv, h => by simp [dupdate] at h
  | hv :: rest, k, v, kv, h => by
    simp only [dupdate] at h
    split at h
    · rcases List.mem_cons.mp h with h1 | h1
      · exact Or.inr h1
      · exact Or.inl (List.mem_cons_of_mem hv h1)
    · rcases List.mem_cons.mp h with h1 | h1
      · exact Or.inl (h1 ▸ List.mem_cons_self hv rest)
      · rcases mem_dupdate rest k v kv h1 with h2 | h2
        · exact Or.inl (List.mem_cons_of_mem hv h2)
        · exact Or.inr h2

theorem dlookup_dupdate_self : ∀ (l : List (String × Doc)) (k : String) (v w : Doc),
    dlookup k l = some w → dlookup k (dupdate k v l) = some v
  | [], k, v, w, h => by simp [dlookup] at h
  | kv :: rest, k, v, w, h => by
    by_cases he : kv.1 = k
    · simp [dupdate, he, dlookup]
    · rw [dlookup, if_neg he] at h
      simp only [dupdate, if_neg he]
      rw [dlookup, if_neg he]
      exact dlookup_dupdate_self rest k v w h

theorem popKeys_cons_notmem : ∀ (ks : List String) (kv : String × Doc)
    (l : List (String × Doc)),
    (∀ k ∈ ks, k ≠ kv.1) →
    popKeys (kv :: l) ks = (popKeys l ks).map (fun m => kv :: m)
  | [], kv, l, _ => by simp [popKeys]
  | k :: ks, kv, l, h => by
    have hk : k ≠ kv.1 := h k (List.mem_cons_self _ _)
    simp only [popKeys, dpop]
    rw [if_neg (fun he : kv.1 = k => hk he.symm)]
    cases hm : dpop k l with
    | none => simp [hm]
    | some m =>
      simp only [hm, Option.map_some']
      exact popKeys_cons_notmem ks kv m (fun k2 hk2 => h k2 (List.mem_cons_of_mem _ hk2))

theorem collectEmptyKeys_cons (kv : String × Doc) (rest : List (String × Doc))
    (hnin : kv.1 ∉ rest.map Prod.fst) :
    collectEmptyKeys (kv :: rest)
      = (if isEmptyContainer kv.2 then [kv.1] else []) ++ collectEmptyKeys rest := by
  unfold collectEmptyKeys
  simp only [List.map_cons, List.filter_cons]
  have hhead : dlookup kv.1 (kv :: rest) = some kv.2 := by rw [dlookup, if_pos rfl]
  have htail : ∀ k ∈ rest.map Prod.fst,
      (match dlookup k (kv :: rest) with
       | some v => isEmptyContainer v
       | none => false)
      = (match dlookup k rest with
         | some v => isEmptyContainer v
         | none => false) := by
    intro k hk
    have hne : kv.1 ≠ k := fun he => hnin (he ▸ hk)
    rw [dlookup, if_neg hne]
  rw [List.filter_congr htail, hhead]
  by_cases he : isEmptyContainer kv.2 <;> simp [he]

theorem popKeys_collectEmpty : ∀ l : List (String × Doc),
    (l.map Prod.fst).Nodup →
    popKeys l (collectEmptyKeys l) = some (l.filter (fun kv => !isEmptyContainer kv.2))
  | [], _ => by simp [collectEmptyKeys, popKeys]
  | kv :: rest, hnd => by
    rw [List.map_cons, List.nodup_cons] at hnd
    obtain ⟨hnin, hnd2⟩ := hnd
    rw [collectEmptyKeys_cons kv rest hnin]
    by_cases he : isEmptyContainer kv.2
    · rw [if_pos he, List.singleton_append]
      have hd : dpop kv.1 (kv :: rest) = some rest := by rw [dpop, if_pos rfl]
      simp only [popKeys, hd]
      rw [popKeys_collectEmpty rest hnd2]
      simp [List.filter_cons, he]
    · rw [if_neg he, List.nil_append]
      rw [popKeys_cons_notmem _ kv rest
        (fun k hk heq => hnin (heq ▸ collectEmptyKeys_subset_keys rest k hk))]
      rw [popKeys_collectEmpty rest hnd2]
      simp [List.filter_cons, he]

/-! ### Unfolding equations for `remove_from_diff` -/

theorem remove_from_diff_none (diff : List (String × Doc)) (pops : List String)
    (hvc : dlookup "values_changed" diff = none) :
    remove_from_diff diff pops = popKeys diff (collectEmptyKeys diff) := by
  unfold remove_from_diff
  rw [hvc]

theorem remove_from_diff_nonobj (diff : List (String × Doc)) (pops : List String)
    (v : Doc) (hvc : dlookup "values_changed" diff = some v)
    (hno : ∀ entries, v ≠ Doc.obj entries) :
    remove_from_diff diff pops = none := by
  unfold remove_from_diff
  rw [hvc]
  cases v with
  | obj entries => exact absurd rfl (hno entries)
  | str s => rfl
  | num n => rfl
  | bool b => rfl
  | null => rfl
  | arr xs => rfl

theorem remove_from_diff_obj (diff : List (String × Doc)) (pops : List String)
    (entries : List (String × Doc))
    (hvc : dlookup "values_changed" diff = some (Doc.obj entries)) :
    remove_from_diff diff pops
      = match buildToPop pops entries with
        | none => none
        | some tp =>
          match popKeys entries tp with
          | none => none
          | some entries2 =>
            popKeys (dupdate "values_changed" (Doc.obj entries2) diff)
              (collectEmptyKeys (dupdate "values_changed" (Doc.obj entries2) diff)) := by
  unfold remove_from_diff
  rw [hvc]

theorem remove_from_diff_obj_bt_none (diff : List (String × Doc)) (pops : List String)
    (entries : List (String × Doc))
    (hvc : dlookup "values_changed" diff = some (Doc.obj entries))
    (hbt : buildToPop pops entries = none) :
    remove_from_diff diff pops = none := by
  rw [remove_from_diff_obj diff pops entries hvc, hbt]

theorem remove_from_diff_obj_pk_none (diff : List (String × Doc)) (pops : List String)
    (entries : List (String × Doc)) (tp : List String)
    (hvc : dlookup "values_changed" diff = some (Doc.obj entries))
    (hbt : buildToPop pops entries = some tp)
    (hpk : popKeys entries tp = none) :
    remove_from_diff diff pops = none := by
  rw [remove_from_diff_obj diff pops entries hvc]
  simp only [hbt, hpk]

theorem remove_from_diff_obj_eq (diff : List (String × Doc)) (pops : List String)
    (entries : List (String × Doc)) (tp : List String)
    (entries2 : List (String × Doc))
    (hvc : dlookup "values_changed" diff = some (Doc.obj entries))
    (hbt : buildToPop pops entries = some tp)
    (hpk : popKeys entries tp = some entries2) :
    remove_from_diff diff pops
      = popKeys (dupdate "values_changed" (Doc.obj entries2) diff)
          (collectEmptyKeys (dupdate "values_changed" (Doc.obj entries2) diff)) := by
  rw [remove_from_diff_obj diff pops entries hvc]
  simp only [hbt, hpk]

theorem isNoisy_eq_false_of_not_string (pops : List String) (v : Doc)
    (h : isStringDoc v = false) : isNoisy pops v = false := by
  cases v with
  | str s => simp [isStringDoc] at h
  | num n => rfl
  | bool b => rfl
  | null => rfl
  | arr xs => rfl
  | obj kvs => rfl

/-- C6: suppression only shrinks a change-set: every category of the
post-processed diff was a category of the input, bound either to its old
container or (for `values_changed`) to a sublist of its old entries; and on
the empty change-set the result is empty.  Suppression can thus turn a FAIL
(non-empty diff) into a PASS, never a PASS into a FAIL. -/
theorem remove_from_diff_shrinks (diff : List (String × Doc)) (pops : List String)
    (diff2 : List (String × Doc)) (h : remove_from_diff diff pops = some diff2) :
    (∀ kv ∈ diff2, ∃ v, (kv.1, v) ∈ diff ∧
        (kv.2 = v ∨ ∃ e2 e1, kv.2 = Doc.obj e2 ∧ v = Doc.obj e1 ∧ e2.Sublist e1)) ∧
    (diff = [] → diff2 = []) := by
  constructor
  · intro kv hkv
    cases hvc : dlookup "values_changed" diff with
    | none =>
      rw [remove_from_diff_none diff pops hvc] at h
      exact ⟨kv.2, (popKeys_sublist _ _ _ h).subset hkv, Or.inl rfl⟩
    | some v =>
      cases v with
      | obj entries =>
        cases hbt : buildToPop pops entries with
        | none =>
          rw [remove_from_diff_obj_bt_none diff pops entries hvc hbt] at h
          exact Option.noConfusion h
        | some tp =>
          cases hpk : popKeys entries tp with
          | none =>
            rw [remove_from_diff_obj_pk_none diff pops entries tp hvc hbt hpk] at h
            exact Option.noConfusion h
          | some entries2 =>
            rw [remove_from_diff_obj_eq diff pops entries tp entries2 hvc hbt hpk] at h
            have hin1 : kv ∈ dupdate "values_changed" (Doc.obj entries2) diff :=
              (popKeys_sublist _ _ _ h).subset hkv
            rcases mem_dupdate _ _ _ _ hin1 with h1 | h1
            · exact ⟨kv.2, h1, Or.inl rfl⟩
            · refine ⟨Doc.obj entries, ?_, Or.inr ⟨entries2, entries, ?_, rfl,
                popKeys_sublist _ _ _ hpk⟩⟩
              · have : (kv.1, Doc.obj entries) = ("values_changed", Doc.obj entries) := by
                  rw [h1]
                rw [this]
                exact dlookup_mem _ _ _ hvc
              · rw [h1]
      | str s =>
        rw [remove_from_diff_nonobj diff pops (Doc.str s) hvc
          (fun e hh => Doc.noConfusion hh)] at h
        exact Option.noConfusion h
      | num n =>
        rw [remove_from_diff_nonobj diff pops (Doc.num n) hvc
          (fun e hh => Doc.noConfusion hh)] at h
        exact Option.noConfusion h
      | bool b =>
        rw [remove_from_diff_nonobj diff pops (Doc.bool b) hvc
          (fun e hh => Doc.noConfusion hh)] at h
        exact Option.noConfusion h
      | null =>
        rw [remove_from_diff_nonobj diff pops Doc.null hvc
          (fun e hh => Doc.noConfusion hh)] at h
        exact Option.noConfusion h
      | arr xs =>
        rw [remove_from_diff_nonobj diff pops (Doc.arr xs) hvc
          (fun e hh => Doc.noConfusion hh)] at h
        exact Option.noConfusion h
  · intro hd
    subst hd
    rw [remove_from_diff_none [] pops rfl] at h
    simp only [collectEmptyKeys, List.map_nil, List.filter_nil, popKeys] at h
    injection h with h
    exact h.symm

/-- Witness for C6 at a concrete input: a diff with one clean
`values_changed` entry survives suppression with noise list `["zz"]`, and
its category together with its entry come from the input diff. -/
theorem remove_from_diff_shrinks_witness :
    ∃ v, ("values_changed", v) ∈ diffW6 ∧
      (Doc.obj [("p", Doc.obj [("new_value", Doc.str "abc"), ("old_value", Doc.str "abd")])] = v ∨
       ∃ e2 e1, Doc.obj [("p", Doc.obj [("new_value", Doc.str "abc"),
           ("old_value", Doc.str "abd")])] = Doc.obj e2 ∧ v = Doc.obj e1 ∧ e2.Sublist e1) :=
  (remove_from_diff_shrinks diffW6 ["zz"] diffW6 rfl).1
    ("values_changed", Doc.obj [("p",
        Doc.obj [("new_value", Doc.str "abc"), ("old_value", Doc.str "abd")])])
    (List.mem_cons_self _ _)

/-- C9: a `values_changed` entry whose old and new values are both
non-strings is never deleted by suppression: whenever `remove_from_diff`
returns, the entry is still present under `values_changed`, whatever the
noise list. -/
theorem remove_from_diff_keeps_nonstring (diff : List (String × Doc)) (pops : List String)
    (entries dkvs : List (String × Doc)) (k : String) (diff2 : List (String × Doc))
    (hvc : dlookup "values_changed" diff = some (Doc.obj entries))
    (hnd : (entries.map Prod.fst).Nodup)
    (hmem : (k, Doc.obj dkvs) ∈ entries)
    (hns : dkvs.all (fun kv => !isStringDoc kv.2) = true)
    (hres : remove_from_diff diff pops = some diff2) :
    ∃ entries2, dlookup "values_changed" diff2 = some (Doc.obj entries2) ∧
      (k, Doc.obj dkvs) ∈ entries2 := by
  cases hbt : buildToPop pops entries with
  | none =>
    rw [remove_from_diff_obj_bt_none diff pops entries hvc hbt] at hres
    exact Option.noConfusion hres
  | some tp =>
  cases hpk : popKeys entries tp with
  | none =>
    rw [remove_from_diff_obj_pk_none diff pops entries tp hvc hbt hpk] at hres
    exact Option.noConfusion hres
  | some entries2 =>
  rw [remove_from_diff_obj_eq diff pops entries tp entries2 hvc hbt hpk] at hres
  have hknotin : k ∉ tp := by
    intro hkin
    obtain ⟨d, c, hdmem, hcnt, hpos⟩ := buildToPop_mem entries pops tp k hbt hkin
    have hde : d = Doc.obj dkvs := nodup_assoc_eq entries k d (Doc.obj dkvs) hnd hdmem hmem
    subst hde
    have hfil : dkvs.filter (fun kv => isNoisy pops kv.2) = [] := by
      rw [List.filter_eq_nil_iff]
      intro kv hkv
      have hb := List.all_eq_true.mp hns kv hkv
      rw [isNoisy_eq_false_of_not_string pops kv.2 (by simpa using hb)]
      simp
    have hzero : noisyCount pops (Doc.obj dkvs) = some 0 := by
      simp only [noisyCount, hfil, List.length_nil]
    rw [hzero] at hcnt
    injection hcnt with hcnt
    omega
  have hinkeep : (k, Doc.obj dkvs) ∈ entries2 :=
    popKeys_mem_preserved tp entries entries2 (k, Doc.obj dkvs) hpk hmem hknotin
  have hlk1 : dlookup "values_changed" (dupdate "values_changed" (Doc.obj entries2) diff)
      = some (Doc.obj entries2) :=
    dlookup_dupdate_self diff "values_changed" (Doc.obj entries2) (Doc.obj entries) hvc
  have hvcnotin : "values_changed"
      ∉ collectEmptyKeys (dupdate "values_changed" (Doc.obj entries2) diff) := by
    intro hin
    obtain ⟨v, hv, hemp⟩ := collectEmptyKeys_mem _ "values_changed" hin
    rw [hlk1] at hv
    injection hv with hv
    subst hv
    cases entries2 with
    | nil => exact absurd hinkeep (List.not_mem_nil _)
    | cons e es => simp [isEmptyContainer] at hemp
  refine ⟨entries2, ?_, hinkeep⟩
  rw [popKeys_dlookup _ _ _ "values_changed" hres hvcnotin]
  exact hlk1

/-- Witness for C9 at a concrete input: the numeric entry of `diffW9`
survives suppression with noise list `["1"]`. -/
theorem remove_from_diff_keeps_nonstring_witness :
    ∃ entries2, dlookup "values_changed" diffW9 = some (Doc.obj entries2) ∧
      ("p", Doc.obj [("new_value", Doc.num 1), ("old_value", Doc.num 2)]) ∈ entries2 :=
  remove_from_diff_keeps_nonstring diffW9 ["1"]
    [("p", Doc.obj [("new_value", Doc.num 1), ("old_value", Doc.num 2)])]
    [("new_value", Doc.num 1), ("old_value", Doc.num 2)] "p" diffW9
    rfl (by decide) (List.mem_cons_self _ _) rfl rfl

/-- C10: whenever `remove_from_diff` returns, no category of the resulting
diff is bound to an empty dict or an empty list: the second loop prunes
every empty container, including categories other than `values_changed` and
categories that were already empty in the input. -/
theorem remove_from_diff_prunes_empty (diff : List (String × Doc)) (pops : List String)
    (diff2 : List (String × Doc)) (hnd : (diff.map Prod.fst).Nodup)
    (hres : remove_from_diff diff pops = some diff2) :
    ∀ kv ∈ diff2, isEmptyContainer kv.2 = false := by
  intro kv hkv
  cases hvc : dlookup "values_changed" diff with
  | none =>
    rw [remove_from_diff_none diff pops hvc, popKeys_collectEmpty diff hnd] at hres
    injection hres with hres
    subst hres
    have := List.of_mem_filter hkv
    simpa using this
  | some v =>
    cases v with
    | obj entries =>
      cases hbt : buildToPop pops entries with
      | none =>
        rw [remove_from_diff_obj_bt_none diff pops entries hvc hbt] at hres
        exact Option.noConfusion hres
      | some tp =>
      cases hpk : popKeys entries tp with
      | none =>
        rw [remove_from_diff_obj_pk_none diff pops entries tp hvc hbt hpk] at hres
        exact Option.noConfusion hres
      | some entries2 =>
      rw [remove_from_diff_obj_eq diff pops entries tp entries2 hvc hbt hpk] at hres
      have hnd1 : ((dupdate "values_changed" (Doc.obj entries2) diff).map Prod.fst).Nodup := by
        rw [dupdate_map_fst]
        exact hnd
      rw [popKeys_collectEmpty _ hnd1] at hres
      injection hres with hres
      subst hres
      have := List.of_mem_filter hkv
      simpa using this
    | str s =>
      rw [remove_from_diff_nonobj diff pops (Doc.str s) hvc
        (fun e hh => Doc.noConfusion hh)] at hres
      exact Option.noConfusion hres
    | num n =>
      rw [remove_from_diff_nonobj diff pops (Doc.num n) hvc
        (fun e hh => Doc.noConfusion hh)] at hres
      exact Option.noConfusion hres
    | bool b =>
      rw [remove_from_diff_nonobj diff pops (Doc.bool b) hvc
        (fun e hh => Doc.noConfusion hh)] at hres
      exact Option.noConfusion hres
    | null =>
      rw [remove_from_diff_nonobj diff pops Doc.null hvc
        (fun e hh => Doc.noConfusion hh)] at hres
      exact Option.noConfusion hres
    | arr xs =>
      rw [remove_from_diff_nonobj diff pops (Doc.arr xs) hvc
        (fun e hh => Doc.noConfusion hh)] at hres
      exact Option.noConfusion hres

/-- Witness for C10 at a concrete input: after suppressing `diffW10` (whose
`item_added` category is an already-empty list), the surviving
`values_changed` container is not empty — instantiated from the pruning
theorem at the concrete result of `remove_from_diff`. -/
theorem remove_from_diff_prunes_empty_witness :
    isEmptyContainer (Doc.obj [("p",
        Doc.obj [("new_value", Doc.str "a"), ("old_value", Doc.str "b")])]) = false :=
  remove_from_diff_prunes_empty diffW10 []
    [("values_changed", Doc.obj [("p",
        Doc.obj [("new_value", Doc.str "a"), ("old_value", Doc.str "b")])])]
    (by decide) rfl
    ("values_changed", Doc.obj [("p",
        Doc.obj [("new_value", Doc.str "a"), ("old_value", Doc.str "b")])])
    (List.mem_cons_self _ _)

end Scraper
